import Mathlib

/-!
Shallow embedding of the case-lifecycle core of the vakil repository
(src/server/singlestore.ts, src/server/routes.ts, src/shared/schema.ts,
src/unnamed/part_006), together with theorems checking the natural-language
specification against it.

Timestamps are modelled as natural numbers.  The SingleStore-backed storage
is modelled as a pure record of table contents; each SQL statement of the
source becomes an explicit list operation on that record.
-/

namespace Vakil

deriving instance DecidableEq for Except

/-- Row of the Case_Events table (schema.ts caseEvents / DDL Case_Events). -/
structure CaseEvent where
  id : String
  caseId : String
  eventType : String
  occurredAt : Nat
  details : Option String
  createdAt : Nat
deriving Repr, DecidableEq

/-- Row of the cases table (DDL: case_id, client_id, case_creation_date,
last_case_status, PRIMARY KEY (client_id, case_id)). -/
structure CaseRec where
  case_id : String
  client_id : String
  case_creation_date : Nat
  last_case_status : String
deriving Repr, DecidableEq

/-- Row of the clients table. -/
structure ClientRec where
  client_id : String
  first_name : String
  last_name : String
  national_id : String
  phone_numbers : List String
  password : Option String
deriving Repr, DecidableEq

/-- Row of the national_id_registry table (PRIMARY KEY national_id). -/
structure RegistryEntry where
  national_id : String
  client_id : String
deriving Repr, DecidableEq

/-- The database state: the four tables the case-lifecycle core touches. -/
structure DB where
  clients : List ClientRec
  registry : List RegistryEntry
  cases : List CaseRec
  events : List CaseEvent
deriving Repr, DecidableEq

/-- Error taxonomy of the core, as surfaced by singlestore.ts and routes.ts. -/
inductive StoreErr where
  | duplicateKey
  | invalidArgument
  | notFound
  | caseIdInUse (caseId : String)
deriving Repr, DecidableEq

/-- getCase (singlestore.ts): SELECT * FROM cases WHERE case_id = ? , first row. -/
def getCase (db : DB) (caseId : String) : Option CaseRec :=
  db.cases.find? (fun c => c.case_id == caseId)

/-- Events of one case: SELECT * FROM Case_Events WHERE case_id = ? . -/
def eventsOfCase (db : DB) (caseId : String) : List CaseEvent :=
  db.events.filter (fun e => e.caseId == caseId)

/-- ORDER BY occurred_at DESC LIMIT 1 : an event with maximal occurred_at.
On ties the SQL row order is engine-defined; this embedding keeps the first
maximal element, and every theorem that depends on the choice assumes a
strict maximum. -/
def latestEvent : List CaseEvent → Option CaseEvent
  | [] => none
  | e :: es => some (es.foldl (fun acc x => if acc.occurredAt < x.occurredAt then x else acc) e)

/-- Row action of the UPDATE below on a single cases row. -/
def updStatus (clientId caseId status : String) (c : CaseRec) : CaseRec :=
  if c.client_id == clientId && c.case_id == caseId then
    { c with last_case_status := status } else c

/-- UPDATE cases SET last_case_status = ? WHERE client_id = ? AND case_id = ? . -/
def setCaseStatus (db : DB) (clientId caseId status : String) : DB :=
  { db with cases := db.cases.map (updStatus clientId caseId status) }

/-- syncCaseStatus (singlestore.ts 1220-1264): join the latest event with the
case row; if a joined row exists write its event_type, otherwise, if the case
row exists, write the default status "pending"; if the case row does not
exist, do nothing. -/
def syncCaseStatus (db : DB) (caseId : String) : DB :=
  match latestEvent (eventsOfCase db caseId), getCase db caseId with
  | some e, some c => setCaseStatus db c.client_id caseId e.eventType
  | _, _ =>
    match getCase db caseId with
    | some c => setCaseStatus db c.client_id caseId "pending"
    | none => db

/-- The stored current status of a case, read back from the cases table. -/
def caseStatus (db : DB) (caseId : String) : Option String :=
  (getCase db caseId).map (fun c => c.last_case_status)

/-- The status the projector derives from a plain event list. -/
def projStatus (events : List CaseEvent) (caseId : String) : String :=
  match latestEvent (events.filter (fun e => e.caseId == caseId)) with
  | some e => e.eventType
  | none => "pending"

/-- isClientIdUnique (singlestore.ts 386): COUNT(*) over clients with that id is 0. -/
def isClientIdUnique (db : DB) (clientId : String) : Bool :=
  (db.clients.filter (fun c => c.client_id == clientId)).length == 0

/-- isCaseIdUnique (singlestore.ts 399): COUNT(*) over cases with that id is 0. -/
def isCaseIdUnique (db : DB) (caseId : String) : Bool :=
  (db.cases.filter (fun c => c.case_id == caseId)).length == 0

/-- The do-while identifier loop of createClient and createCase: attempt k
draws candidate gen k; the loop exits with the first candidate whose
uniqueness check passes.  The source loop carries no attempt bound; fuel is
only the observation depth of this embedding, and none means the loop has
not terminated within that many attempts. -/
def allocLoop (gen : Nat → String) (uniq : String → Bool) : Nat → Nat → Option String
  | _, 0 => none
  | k, Nat.succ fuel =>
    let c := gen k
    if uniq c then some c else allocLoop gen uniq (k + 1) fuel

/-- Membership test of the national_id_registry primary key: a second INSERT
with the same national_id violates the key and aborts the transaction. -/
def registryHas (db : DB) (nationalId : String) : Bool :=
  db.registry.any (fun r => r.national_id == nationalId)

/-- createClient (singlestore.ts 665-711): inside one transaction, loop for a
unique client id, INSERT into national_id_registry (primary-key violation on
a repeated national_id rolls the transaction back and rethrows), then INSERT
into clients, then commit.  The error branch returns the unchanged state
(rollback). -/
def createClient (gen : Nat → String) (fuel : Nat) (db : DB)
    (firstName lastName nationalId : String) (phoneNumbers : List String)
    (password : Option String) : Option (Except StoreErr ClientRec × DB) :=
  match allocLoop gen (isClientIdUnique db) 0 fuel with
  | none => none
  | some clientId =>
    if registryHas db nationalId then
      some (Except.error StoreErr.duplicateKey, db)
    else
      let client : ClientRec := ⟨clientId, firstName, lastName, nationalId, phoneNumbers, password⟩
      some (Except.ok client,
        { db with
            registry := db.registry ++ [⟨nationalId, clientId⟩],
            clients := db.clients ++ [client] })

/-- The String.prototype.trim of the source, as a kernel-reducible function:
whitespace is stripped from both ends of the character list. -/
def strTrim (s : String) : String :=
  ⟨((s.data.dropWhile Char.isWhitespace).reverse.dropWhile Char.isWhitespace).reverse⟩

/-- createCase (singlestore.ts 713-748): a supplied id that is truthy and has
a truthy trim is used after a uniqueness check (failure throws the Persian
message for an identifier already in use, creating nothing); otherwise the
auto-generation do-while loop runs; the INSERT stores the chosen id. -/
def createCase (gen : Nat → String) (fuel : Nat) (db : DB)
    (clientId lastCaseStatus : String) (customCaseId : Option String)
    (creationDate : Nat) : Option (Except StoreErr CaseRec × DB) :=
  let insert := fun (caseId : String) =>
    let c : CaseRec := ⟨caseId, clientId, creationDate, lastCaseStatus⟩
    (Except.ok c, { db with cases := db.cases ++ [c] })
  match customCaseId with
  | some s =>
    if strTrim s == "" then
      (allocLoop gen (isCaseIdUnique db) 0 fuel).map insert
    else if isCaseIdUnique db (strTrim s) then
      some (insert (strTrim s))
    else
      some (Except.error (StoreErr.caseIdInUse s), db)
  | none => (allocLoop gen (isCaseIdUnique db) 0 fuel).map insert

/-- Insert payload of createCaseEvent (shared/schema.ts insertCaseEventSchema
99-103): only caseId, eventType and details are picked; occurredAt is absent
from the schema, so a caller cannot supply it. -/
structure InsertCaseEvent where
  caseId : String
  eventType : String
  details : Option String
deriving Repr, DecidableEq

/-- createCaseEvent (singlestore.ts 1095-1125): INSERT (id, case_id,
event_type, details) omitting occurred_at and created_at, so both columns
take the CURRENT_TIMESTAMP default (the now argument); then syncCaseStatus
for the case; the created event is returned. -/
def createCaseEvent (db : DB) (now : Nat) (newId : String) (ins : InsertCaseEvent) :
    CaseEvent × DB :=
  let e : CaseEvent := ⟨newId, ins.caseId, ins.eventType, now, ins.details, now⟩
  let db1 : DB := { db with events := db.events ++ [e] }
  (e, syncCaseStatus db1 ins.caseId)

/-- POST /api/cases/:caseId/events (routes.ts 231-262): verify the case
exists (404 if not), then createCaseEvent. -/
def appendEvent (db : DB) (now : Nat) (newId caseId eventType : String)
    (details : Option String) : Except StoreErr (CaseEvent × DB) :=
  match getCase db caseId with
  | none => Except.error StoreErr.notFound
  | some _ => Except.ok (createCaseEvent db now newId ⟨caseId, eventType, details⟩)

/-- A Partial of InsertCaseEvent restricted to updatable columns: outer none
means the field is absent from the patch; for details the inner option is
the nullable column value. -/
structure EventPatch where
  eventType : Option String
  details : Option (Option String)
deriving Repr, DecidableEq

/-- Dynamic SET clause of updateCaseEvent: only supplied fields change. -/
def applyPatch (p : EventPatch) (e : CaseEvent) : CaseEvent :=
  let e1 := match p.eventType with
    | some t => { e with eventType := t }
    | none => e
  match p.details with
  | some d => { e1 with details := d }
  | none => e1

/-- SELECT * FROM Case_Events WHERE id = ? , first row. -/
def findEvent (db : DB) (eventId : String) : Option CaseEvent :=
  db.events.find? (fun e => e.id == eventId)

/-- updateCaseEvent (singlestore.ts 1127-1189): read the event's case_id,
reject an empty patch, UPDATE the supplied fields, re-read the event (null
when it does not exist), and sync the owning case when a case_id was found. -/
def updateCaseEvent (db : DB) (eventId : String) (p : EventPatch) :
    Except StoreErr (Option CaseEvent × DB) :=
  let caseIdOpt := (findEvent db eventId).map (fun e => e.caseId)
  if p.eventType.isNone && p.details.isNone then
    Except.error StoreErr.invalidArgument
  else
    let db1 : DB := { db with events := db.events.map (fun e =>
      if e.id == eventId then applyPatch p e else e) }
    match findEvent db1 eventId with
    | none => Except.ok (none, db1)
    | some e2 =>
      match caseIdOpt with
      | some cid => Except.ok (some e2, syncCaseStatus db1 cid)
      | none => Except.ok (some e2, db1)

/-- deleteCaseEvent (singlestore.ts 1191-1217): read the event's case_id,
DELETE the row, and when a row was deleted and a case_id was found, sync the
owning case; returns whether a row was deleted. -/
def deleteCaseEvent (db : DB) (eventId : String) : Bool × DB :=
  let caseIdOpt := (findEvent db eventId).map (fun e => e.caseId)
  let deleted := db.events.any (fun e => e.id == eventId)
  let db1 : DB := { db with events := db.events.filter (fun e => e.id != eventId) }
  match deleted, caseIdOpt with
  | true, some cid => (true, syncCaseStatus db1 cid)
  | _, _ => (deleted, db1)

/-- Per-case sync as run inside syncAllCaseStatuses: the try/catch of
syncCaseStatus swallows storage failures, logging them and leaving the state
unchanged, so a failure is never rethrown to the batch.  The fails oracle
says which cases' storage round trips fail. -/
def syncCaseStatusF (fails : String → Bool) (db : DB) (caseId : String) : DB :=
  if fails caseId then db else syncCaseStatus db caseId

/-- syncAllCaseStatuses (singlestore.ts 1267-1285): SELECT all case rows,
then sync each in order; the Promise resolves with void (the processed and
failed counts are only written to the console). -/
def syncAllCaseStatuses (fails : String → Bool) (db : DB) : DB × Unit :=
  (db.cases.foldl (fun acc c => syncCaseStatusF fails acc c.case_id) db, ())

/-- Modelled from the spec: reprojectAll returns a summary with how many
cases were processed versus how many failed, alongside the final state.
This definition follows section 4.3 and 6 of the spec and exists only to be
compared with syncAllCaseStatuses, whose source returns void. -/
def reprojectAllSpec (fails : String → Bool) (db : DB) : DB × Nat × Nat :=
  db.cases.foldl
    (fun acc c =>
      if fails c.case_id then (acc.1, acc.2.1, acc.2.2 + 1)
      else (syncCaseStatus acc.1 c.case_id, acc.2.1 + 1, acc.2.2))
    (db, 0, 0)

section SanityChecks

def evA : CaseEvent := ⟨"e1", "1000001", "pending", 1, none, 1⟩
def evB : CaseEvent := ⟨"e2", "1000001", "lawyer-study", 3, none, 2⟩
def evC : CaseEvent := ⟨"e3", "1000001", "in-progress", 2, none, 3⟩
def caseA : CaseRec := ⟨"1000001", "1000", 0, "pending"⟩
def dbA : DB := ⟨[], [], [caseA], [evA, evB, evC]⟩

example : caseStatus (syncCaseStatus dbA "1000001") "1000001" = some "lawyer-study" := by decide

example : latestEvent [evA, evB, evC] = some evB := by decide

example :
    createCase (fun _ => "1000002") 1 dbA "1000" "pending" (some " 7654321 ") 9 =
      some (Except.ok ⟨"7654321", "1000", 9, "pending"⟩,
        { dbA with cases := dbA.cases ++ [⟨"7654321", "1000", 9, "pending"⟩] }) := by decide

example : allocLoop (fun _ => "1000") (fun _ => false) 0 50 = none := by decide

example :
    createClient (fun k => if k == 0 then "1000" else "1001") 5
      ⟨[⟨"1000", "a", "b", "42", [], none⟩], [⟨"42", "1000"⟩], [], []⟩
      "x" "y" "42" [] none =
      some (Except.error StoreErr.duplicateKey,
        ⟨[⟨"1000", "a", "b", "42", [], none⟩], [⟨"42", "1000"⟩], [], []⟩) := by decide

example :
    (syncAllCaseStatuses (fun _ => false) dbA).2 = () := rfl

example :
    (reprojectAllSpec (fun s => s == "1000001") dbA).2 = (0, 1) := by decide

end SanityChecks

/-! ### Generic list lemmas -/

theorem find_map_comm {α : Type} (f : α → α) (p : α → Bool) (hp : ∀ x, p (f x) = p x) :
    ∀ l : List α, (l.map f).find? p = (l.find? p).map f := by
  intro l
  induction l with
  | nil => rfl
  | cons x xs ih =>
    simp only [List.map_cons, List.find?]
    rw [hp x]
    cases hx : p x
    · simpa using ih
    · rfl

theorem filter_map_comm {α : Type} (f : α → α) (p : α → Bool) (hp : ∀ x, p (f x) = p x) :
    ∀ l : List α, (l.map f).filter p = (l.filter p).map f := by
  intro l
  induction l with
  | nil => rfl
  | cons x xs ih =>
    simp only [List.map_cons, List.filter]
    rw [hp x]
    cases hx : p x
    · simpa using ih
    · simpa using ih

theorem map_idem {α : Type} (f : α → α) (hf : ∀ x, f (f x) = f x) :
    ∀ l : List α, (l.map f).map f = l.map f := by
  intro l
  induction l with
  | nil => rfl
  | cons x xs ih => simp only [List.map_cons, ih, hf x]

/-! ### latestEvent lemmas -/

theorem foldl_pick_mem (es : List CaseEvent) :
    ∀ a : CaseEvent,
      es.foldl (fun acc x => if acc.occurredAt < x.occurredAt then x else acc) a = a ∨
      es.foldl (fun acc x => if acc.occurredAt < x.occurredAt then x else acc) a ∈ es := by
  induction es with
  | nil => intro a; left; rfl
  | cons y ys ih =>
    intro a
    simp only [List.foldl_cons]
    rcases ih (if a.occurredAt < y.occurredAt then y else a) with h | h
    · rw [h]
      by_cases hy : a.occurredAt < y.occurredAt
      · right; simp [hy]
      · left; simp [hy]
    · right; exact List.mem_cons_of_mem y h

theorem foldl_pick_ge_init (es : List CaseEvent) :
    ∀ a : CaseEvent,
      a.occurredAt ≤
        (es.foldl (fun acc x => if acc.occurredAt < x.occurredAt then x else acc) a).occurredAt := by
  induction es with
  | nil => intro a; exact Nat.le_refl _
  | cons y ys ih =>
    intro a
    simp only [List.foldl_cons]
    refine Nat.le_trans ?_ (ih (if a.occurredAt < y.occurredAt then y else a))
    by_cases hy : a.occurredAt < y.occurredAt
    · simp [hy, Nat.le_of_lt hy]
    · simp [hy]

theorem foldl_pick_ge_mem (es : List CaseEvent) :
    ∀ (a x : CaseEvent), x ∈ es →
      x.occurredAt ≤
        (es.foldl (fun acc x => if acc.occurredAt < x.occurredAt then x else acc) a).occurredAt := by
  induction es with
  | nil => intro a x hx; cases hx
  | cons y ys ih =>
    intro a x hx
    simp only [List.foldl_cons]
    rcases List.mem_cons.mp hx with rfl | hx
    · refine Nat.le_trans ?_ (foldl_pick_ge_init ys (if a.occurredAt < x.occurredAt then x else a))
      by_cases hy : a.occurredAt < x.occurredAt
      · simp [hy]
      · simp [hy]; exact Nat.le_of_not_lt hy
    · exact ih _ x hx

theorem latestEvent_mem {l : List CaseEvent} {e : CaseEvent}
    (h : latestEvent l = some e) : e ∈ l := by
  cases l with
  | nil => cases h
  | cons y ys =>
    simp only [latestEvent, Option.some.injEq] at h
    rcases foldl_pick_mem ys y with h2 | h2
    · rw [h2] at h; rw [← h]; exact List.mem_cons_self _ _
    · rw [h] at h2; exact List.mem_cons_of_mem y h2

theorem latestEvent_ge {l : List CaseEvent} {e : CaseEvent}
    (h : latestEvent l = some e) : ∀ x ∈ l, x.occurredAt ≤ e.occurredAt := by
  cases l with
  | nil => cases h
  | cons y ys =>
    simp only [latestEvent, Option.some.injEq] at h
    intro x hx
    rcases List.mem_cons.mp hx with rfl | hx
    · rw [← h]; exact foldl_pick_ge_init ys x
    · rw [← h]; exact foldl_pick_ge_mem ys y x hx

theorem latestEvent_unique_max {l : List CaseEvent} {m : CaseEvent}
    (hm : m ∈ l) (hmax : ∀ x ∈ l, x ≠ m → x.occurredAt < m.occurredAt) :
    latestEvent l = some m := by
  cases hl : latestEvent l with
  | none =>
    cases l with
    | nil => cases hm
    | cons y ys => simp [latestEvent] at hl
  | some r =>
    have hrmem := latestEvent_mem hl
    by_cases hrm : r = m
    · rw [hrm]
    · have h1 := hmax r hrmem hrm
      have h2 := latestEvent_ge hl m hm
      exact absurd (Nat.lt_of_lt_of_le h1 h2) (Nat.lt_irrefl _)

/-! ### setCaseStatus and syncCaseStatus lemmas -/

theorem updStatus_case_id (cl cid s : String) (c : CaseRec) :
    (updStatus cl cid s c).case_id = c.case_id := by
  unfold updStatus
  by_cases h : (c.client_id == cl && c.case_id == cid) = true <;> simp [h]

theorem updStatus_client_id (cl cid s : String) (c : CaseRec) :
    (updStatus cl cid s c).client_id = c.client_id := by
  unfold updStatus
  by_cases h : (c.client_id == cl && c.case_id == cid) = true <;> simp [h]

theorem updStatus_idem (cl cid s : String) (c : CaseRec) :
    updStatus cl cid s (updStatus cl cid s c) = updStatus cl cid s c := by
  unfold updStatus
  by_cases h : (c.client_id == cl && c.case_id == cid) = true <;> simp [h]

theorem setCaseStatus_events (db : DB) (cl cid s : String) :
    (setCaseStatus db cl cid s).events = db.events := rfl

theorem getCase_setCaseStatus (db : DB) (cl cid s cid2 : String) :
    getCase (setCaseStatus db cl cid s) cid2 =
      (getCase db cid2).map (updStatus cl cid s) := by
  unfold getCase setCaseStatus
  exact find_map_comm _ _ (fun x => by rw [updStatus_case_id]) _

theorem getCase_case_id {db : DB} {cid : String} {c : CaseRec}
    (hc : getCase db cid = some c) : (c.case_id == cid) = true := by
  have h : db.cases.find? (fun x => x.case_id == cid) = some c := hc
  have h2 := List.find?_some h
  exact h2

theorem getCase_setCaseStatus_self {db : DB} {cid : String} {c : CaseRec} (s : String)
    (hc : getCase db cid = some c) :
    getCase (setCaseStatus db c.client_id cid s) cid =
      some { c with last_case_status := s } := by
  rw [getCase_setCaseStatus, hc]
  simp [updStatus, getCase_case_id hc]

theorem caseStatus_setCaseStatus_other {db : DB} {cl cid s cid2 : String} (h : cid2 ≠ cid) :
    caseStatus (setCaseStatus db cl cid s) cid2 = caseStatus db cid2 := by
  unfold caseStatus
  rw [getCase_setCaseStatus]
  cases hg : getCase db cid2 with
  | none => rfl
  | some c0 =>
    have h2 : c0.case_id = cid2 := by simpa using getCase_case_id hg
    simp [updStatus, h2, h]

theorem getCase_isSome_setCaseStatus (db : DB) (cl cid s cid2 : String) :
    (getCase (setCaseStatus db cl cid s) cid2).isSome = (getCase db cid2).isSome := by
  rw [getCase_setCaseStatus]
  cases getCase db cid2 <;> rfl

theorem setCaseStatus_idem (db : DB) (cl cid s : String) :
    setCaseStatus (setCaseStatus db cl cid s) cl cid s = setCaseStatus db cl cid s := by
  cases db with
  | mk clientsF registryF casesF eventsF =>
    unfold setCaseStatus
    simp [map_idem _ (updStatus_idem cl cid s)]

theorem syncCaseStatus_no_case {db : DB} {cid : String}
    (h : getCase db cid = none) : syncCaseStatus db cid = db := by
  unfold syncCaseStatus
  rw [h]
  cases latestEvent (eventsOfCase db cid) <;> rfl

theorem syncCaseStatus_eq_set {db : DB} {cid : String} {c : CaseRec}
    (hc : getCase db cid = some c) :
    syncCaseStatus db cid = setCaseStatus db c.client_id cid (projStatus db.events cid) := by
  have hev : db.events.filter (fun e => e.caseId == cid) = eventsOfCase db cid := rfl
  unfold syncCaseStatus
  rw [hc]
  cases hl : latestEvent (eventsOfCase db cid) with
  | some e =>
    have hp : projStatus db.events cid = e.eventType := by
      unfold projStatus; rw [hev, hl]
    rw [hp]
  | none =>
    have hp : projStatus db.events cid = "pending" := by
      unfold projStatus; rw [hev, hl]
    rw [hp]

theorem syncCaseStatus_shape (db : DB) (cid : String) :
    syncCaseStatus db cid = db ∨
    ∃ cl s, syncCaseStatus db cid = setCaseStatus db cl cid s := by
  cases hg : getCase db cid with
  | none => left; exact syncCaseStatus_no_case hg
  | some c => right; exact ⟨c.client_id, projStatus db.events cid, syncCaseStatus_eq_set hg⟩

theorem events_syncCaseStatus (db : DB) (cid : String) :
    (syncCaseStatus db cid).events = db.events := by
  rcases syncCaseStatus_shape db cid with h | ⟨cl, s, h⟩ <;> rw [h]
  rfl

theorem caseStatus_syncCaseStatus_other {db : DB} {cid cid2 : String} (h : cid2 ≠ cid) :
    caseStatus (syncCaseStatus db cid) cid2 = caseStatus db cid2 := by
  rcases syncCaseStatus_shape db cid with h1 | ⟨cl, s, h1⟩
  · rw [h1]
  · rw [h1, caseStatus_setCaseStatus_other h]

theorem getCase_isSome_syncCaseStatus (db : DB) (cid cid2 : String) :
    (getCase (syncCaseStatus db cid) cid2).isSome = (getCase db cid2).isSome := by
  rcases syncCaseStatus_shape db cid with h1 | ⟨cl, s, h1⟩
  · rw [h1]
  · rw [h1, getCase_isSome_setCaseStatus]

theorem caseStatus_syncCaseStatus_self {db : DB} {cid : String} {c : CaseRec}
    (hc : getCase db cid = some c) :
    caseStatus (syncCaseStatus db cid) cid = some (projStatus db.events cid) := by
  rw [syncCaseStatus_eq_set hc]
  unfold caseStatus
  rw [getCase_setCaseStatus_self _ hc]
  rfl

theorem findEvent_id {db : DB} {eid : String} {e : CaseEvent}
    (he : findEvent db eid = some e) : (e.id == eid) = true := by
  have h : db.events.find? (fun x => x.id == eid) = some e := he
  have h2 := List.find?_some h
  exact h2

theorem findEvent_mem {db : DB} {eid : String} {e : CaseEvent}
    (he : findEvent db eid = some e) : e ∈ db.events := by
  have h : db.events.find? (fun x => x.id == eid) = some e := he
  exact List.mem_of_find?_eq_some h

/-! ### Claim theorems -/

/-- C1: after reproject (syncCaseStatus) runs for an existing case, the
stored current status equals the event type of the case's event with the
strictly greatest occurrence timestamp — selection by occurredAt, not by
insertion order — and equals the default "pending" when the case has no
events. -/
theorem reproject_selects_latest_by_occurredAt (db : DB) (cid : String) (c : CaseRec)
    (hc : getCase db cid = some c) :
    (∀ m ∈ eventsOfCase db cid,
       (∀ x ∈ eventsOfCase db cid, x ≠ m → x.occurredAt < m.occurredAt) →
       caseStatus (syncCaseStatus db cid) cid = some m.eventType)
    ∧ (eventsOfCase db cid = [] →
       caseStatus (syncCaseStatus db cid) cid = some "pending") := by
  constructor
  · intro m hm hmax
    rw [caseStatus_syncCaseStatus_self hc]
    unfold projStatus
    rw [show db.events.filter (fun e => e.caseId == cid) = eventsOfCase db cid from rfl,
        latestEvent_unique_max hm hmax]
  · intro hnil
    rw [caseStatus_syncCaseStatus_self hc]
    unfold projStatus
    rw [show db.events.filter (fun e => e.caseId == cid) = eventsOfCase db cid from rfl, hnil]
    rfl

/-- Witness for C1 at the spec's own example: events inserted in the order
t=1 "pending", t=3 "lawyer-study", t=2 "in-progress" project to
"lawyer-study". -/
theorem reproject_selects_latest_by_occurredAt_witness :
    caseStatus (syncCaseStatus dbA "1000001") "1000001" = some "lawyer-study" :=
  (reproject_selects_latest_by_occurredAt dbA "1000001" caseA (by decide)).1 evB
    (by decide) (by decide)

/-- C9: reproject is idempotent: a second syncCaseStatus with no intervening
log mutation returns the very same state (in this storage backend the second
run has no observable side effect at all, and in particular the same
currentStatus both times). -/
theorem reproject_idempotent (db : DB) (cid : String) :
    syncCaseStatus (syncCaseStatus db cid) cid = syncCaseStatus db cid := by
  cases hg : getCase db cid with
  | none => rw [syncCaseStatus_no_case hg, syncCaseStatus_no_case hg]
  | some c =>
    have h1 := syncCaseStatus_eq_set hg
    have hg1 : getCase (syncCaseStatus db cid) cid =
        some { c with last_case_status := projStatus db.events cid } := by
      rw [h1]; exact getCase_setCaseStatus_self _ hg
    have hev1 : (syncCaseStatus db cid).events = db.events := events_syncCaseStatus db cid
    have h2 := syncCaseStatus_eq_set hg1
    rw [h2, hev1, h1]
    exact setCaseStatus_idem db c.client_id cid (projStatus db.events cid)

/-- C3: deleting a case's only event, with the re-projection the delete
triggers, leaves the case's current status at the default "pending". -/
theorem deleteEvent_only_event_falls_back (db : DB) (eventId : String)
    (e : CaseEvent) (c : CaseRec)
    (he : findEvent db eventId = some e)
    (hc : getCase db e.caseId = some c)
    (honly : eventsOfCase db e.caseId = [e]) :
    (deleteCaseEvent db eventId).1 = true ∧
    caseStatus (deleteCaseEvent db eventId).2 e.caseId = some "pending" := by
  have hid : (e.id == eventId) = true := findEvent_id he
  have hany : db.events.any (fun x => x.id == eventId) = true :=
    List.any_eq_true.mpr ⟨e, findEvent_mem he, hid⟩
  have hnil : (db.events.filter (fun x => x.id != eventId)).filter
      (fun x => x.caseId == e.caseId) = [] := by
    rw [List.eq_nil_iff_forall_not_mem]
    intro x hx
    have hx1 := List.mem_filter.mp hx
    have hx2 := List.mem_filter.mp hx1.1
    have hmem : x ∈ eventsOfCase db e.caseId :=
      List.mem_filter.mpr ⟨hx2.1, hx1.2⟩
    rw [honly] at hmem
    have hxe : x = e := by simpa using hmem
    rw [hxe] at hx2
    simp [bne, hid] at hx2
  have hc1 : getCase { db with events := db.events.filter (fun x => x.id != eventId) }
      e.caseId = some c := hc
  have hps : projStatus (db.events.filter (fun x => x.id != eventId)) e.caseId = "pending" := by
    unfold projStatus
    rw [hnil]
    rfl
  simp only [deleteCaseEvent, he, Option.map_some', hany]
  refine ⟨trivial, ?_⟩
  rw [caseStatus_syncCaseStatus_self hc1]
  rw [show ({ db with events := db.events.filter (fun x => x.id != eventId) } : DB).events =
        db.events.filter (fun x => x.id != eventId) from rfl, hps]

def evD : CaseEvent := ⟨"e9", "1000001", "lawyer-study", 5, none, 5⟩
def dbD : DB := ⟨[], [], [caseA], [evD]⟩

/-- Witness for C3: deleting the only event of a concrete one-event case
leaves its status at "pending". -/
theorem deleteEvent_only_event_falls_back_witness :
    (deleteCaseEvent dbD "e9").1 = true ∧
    caseStatus (deleteCaseEvent dbD "e9").2 "1000001" = some "pending" :=
  deleteEvent_only_event_falls_back dbD "e9" evD caseA (by decide) (by decide) (by decide)

/-! ### Allocation loop lemmas -/

theorem allocLoop_all_collide (gen : Nat → String) (uniq : String → Bool)
    (h : ∀ k, uniq (gen k) = false) :
    ∀ fuel k, allocLoop gen uniq k fuel = none := by
  intro fuel
  induction fuel with
  | zero => intro k; rfl
  | succ n ih =>
    intro k
    simp only [allocLoop, h k, Bool.false_eq_true, if_false]
    exact ih (k + 1)

theorem allocLoop_first_unique (gen : Nat → String) (uniq : String → Bool) :
    ∀ (fuel i k : Nat), i ≤ k → k < i + fuel → uniq (gen k) = true →
      (∀ j, i ≤ j → j < k → uniq (gen j) = false) →
      allocLoop gen uniq i fuel = some (gen k) := by
  intro fuel
  induction fuel with
  | zero => intro i k h1 h2 h3 h4; omega
  | succ n ih =>
    intro i k h1 h2 h3 h4
    by_cases hi : uniq (gen i) = true
    · have hik : i = k := by
        by_contra hne
        have hlt : i < k := Nat.lt_of_le_of_ne h1 hne
        rw [h4 i (Nat.le_refl i) hlt] at hi
        cases hi
      cases hik
      simp [allocLoop, hi]
    · have hif : uniq (gen i) = false := Bool.eq_false_iff.mpr hi
      have hik : i < k := by
        rcases Nat.lt_or_ge i k with h | h
        · exact h
        · have : i = k := Nat.le_antisymm (Nat.le_of_not_lt (by omega)) (by omega)
          rw [this, h3] at hif
          cases hif
      simp only [allocLoop, hif, Bool.false_eq_true, if_false]
      exact ih (i + 1) k hik (by omega) h3 (fun j hj1 hj2 => h4 j (by omega) hj2)

/-- Database holding the one 4-digit client id a constant generator keeps
producing, so every allocation attempt collides. -/
def oneClientDb : DB := ⟨[⟨"1000", "a", "b", "111", [], none⟩], [⟨"111", "1000"⟩], [], []⟩

/-- Database holding the one 7-digit case id a constant generator keeps
producing. -/
def oneCaseDb : DB := ⟨[], [], [⟨"1000001", "1000", 0, "pending"⟩], []⟩

/-- Counterexample for C4: with a saturated candidate stream the do-while
allocation loops of createClient and createCase are still running after
9001, respectively 9000001, attempts — more attempts than the whole 4-digit
identifier space — and no namespace-exhausted failure is ever signalled:
the loops are unbounded, refuting the claimed fixed maximum attempt count. -/
theorem alloc_loop_unbounded_cx :
    createClient (fun _ => "1000") 9001 oneClientDb "x" "y" "222" [] none = none
    ∧ createCase (fun _ => "1000001") 9000001 oneCaseDb "1000" "pending" none 0 = none := by
  have h1 : ∀ k : Nat, isClientIdUnique oneClientDb ((fun _ => "1000") k) = false :=
    fun _ => (by decide : isClientIdUnique oneClientDb "1000" = false)
  have h2 : ∀ k : Nat, isCaseIdUnique oneCaseDb ((fun _ => "1000001") k) = false :=
    fun _ => (by decide : isCaseIdUnique oneCaseDb "1000001" = false)
  constructor
  · unfold createClient
    rw [allocLoop_all_collide _ _ h1 9001 0]
  · unfold createCase
    rw [allocLoop_all_collide _ _ h2 9000001 0]
    rfl

/-- C4 amended: the allocation loops of createClient and createCase carry no
attempt bound and no namespace-exhausted signal: a loop terminates exactly
when the candidate generator eventually produces an identifier that passes
the uniqueness check, returning the first such candidate, and with a fully
colliding candidate stream it never terminates, however many attempts are
observed. -/
theorem alloc_loop_retries_until_unique (db : DB) (gen : Nat → String) (k : Nat)
    (h1 : isClientIdUnique db (gen k) = true)
    (h2 : ∀ j, j < k → isClientIdUnique db (gen j) = false) :
    (∀ fuel, k < fuel → allocLoop gen (isClientIdUnique db) 0 fuel = some (gen k))
    ∧ (∀ (gen2 : Nat → String) (uniq2 : String → Bool),
        (∀ i, uniq2 (gen2 i) = false) → ∀ fuel, allocLoop gen2 uniq2 0 fuel = none) := by
  constructor
  · intro fuel hf
    exact allocLoop_first_unique gen (isClientIdUnique db) fuel 0 k (Nat.zero_le k)
      (by omega) h1 (fun j hj1 hj2 => h2 j hj2)
  · intro gen2 uniq2 hall fuel
    exact allocLoop_all_collide gen2 uniq2 hall fuel 0

/-- Witness for the amended C4: a generator colliding on attempt 0 and
unique on attempt 1 makes the loop return the second candidate; a fully
colliding generator makes it return nothing after 5 attempts. -/
theorem alloc_loop_retries_until_unique_witness :
    allocLoop (fun i => if i == 0 then "1000" else "1001")
      (isClientIdUnique oneClientDb) 0 5 = some "1001"
    ∧ allocLoop (fun _ => "1000") (fun _ => false) 0 5 = none :=
  ⟨(alloc_loop_retries_until_unique oneClientDb
      (fun i => if i == 0 then "1000" else "1001") 1 (by decide)
      (fun j hj => by
        have hj0 : j = 0 := by omega
        subst hj0
        decide)).1 5 (by omega),
   (alloc_loop_retries_until_unique oneClientDb
      (fun i => if i == 0 then "1000" else "1001") 1 (by decide)
      (fun j hj => by
        have hj0 : j = 0 := by omega
        subst hj0
        decide)).2 (fun _ => "1000") (fun _ => false) (fun _ => rfl) 5⟩

/-- C2: once an allocation candidate is found, createClient fails with
DuplicateKey on an already-registered nationalId leaving the state unchanged
(the transaction rolls back); on a fresh nationalId it writes the registry
entry and the client record together; every execution writes both or
neither; and after one call committed for a nationalId, any later call with
the same nationalId fails with DuplicateKey — so of two calls with the same
nationalId exactly one succeeds, regardless of order. -/
theorem createClient_duplicate_and_atomic (gen : Nat → String) (fuel : Nat) (db : DB)
    (fn ln nid : String) (phones : List String) (pw : Option String) (cid : String)
    (halloc : allocLoop gen (isClientIdUnique db) 0 fuel = some cid) :
    (registryHas db nid = true →
      createClient gen fuel db fn ln nid phones pw =
        some (Except.error StoreErr.duplicateKey, db))
    ∧ (registryHas db nid = false →
      createClient gen fuel db fn ln nid phones pw =
        some (Except.ok (⟨cid, fn, ln, nid, phones, pw⟩ : ClientRec),
          { db with
              registry := db.registry ++ [⟨nid, cid⟩],
              clients := db.clients ++ [⟨cid, fn, ln, nid, phones, pw⟩] }))
    ∧ (∀ res db2, createClient gen fuel db fn ln nid phones pw = some (res, db2) →
        (db2.registry = db.registry ∧ db2.clients = db.clients) ∨
        (res = Except.ok (⟨cid, fn, ln, nid, phones, pw⟩ : ClientRec) ∧
         db2.registry = db.registry ++ [⟨nid, cid⟩] ∧
         db2.clients = db.clients ++ [⟨cid, fn, ln, nid, phones, pw⟩]))
    ∧ (∀ db2 client, createClient gen fuel db fn ln nid phones pw =
          some (Except.ok client, db2) →
        ∀ (gen2 : Nat → String) (fuel2 : Nat) (fn2 ln2 : String)
          (ph2 : List String) (pw2 : Option String) (cid2 : String),
          allocLoop gen2 (isClientIdUnique db2) 0 fuel2 = some cid2 →
          createClient gen2 fuel2 db2 fn2 ln2 nid ph2 pw2 =
            some (Except.error StoreErr.duplicateKey, db2)) := by
  refine ⟨?_, ?_, ?_, ?_⟩
  · intro hdup
    simp [createClient, halloc, hdup]
  · intro hfresh
    simp [createClient, halloc, hfresh]
  · intro res db2 heq
    rw [createClient, halloc] at heq
    cases hreg : registryHas db nid with
    | true =>
      rw [hreg] at heq
      simp only [if_true, Option.some.injEq, Prod.mk.injEq] at heq
      left
      rw [← heq.2]
      exact ⟨rfl, rfl⟩
    | false =>
      rw [hreg] at heq
      simp only [Bool.false_eq_true, if_false, Option.some.injEq, Prod.mk.injEq] at heq
      right
      rw [← heq.1, ← heq.2]
      exact ⟨rfl, rfl, rfl⟩
  · intro db2 client heq gen2 fuel2 fn2 ln2 ph2 pw2 cid2 halloc2
    rw [createClient, halloc] at heq
    cases hreg : registryHas db nid with
    | true =>
      rw [hreg] at heq
      simp at heq
    | false =>
      rw [hreg] at heq
      simp only [Bool.false_eq_true, if_false, Option.some.injEq, Prod.mk.injEq] at heq
      have hdb2 : db2.registry = db.registry ++ [⟨nid, cid⟩] := by
        rw [← heq.2]
      have hdup2 : registryHas db2 nid = true := by
        unfold registryHas
        rw [hdb2]
        refine List.any_eq_true.mpr ⟨⟨nid, cid⟩, ?_, ?_⟩
        · exact List.mem_append_right _ (List.mem_singleton.mpr rfl)
        · simp
      simp [createClient, halloc2, hdup2]

/-- Fresh empty database for the C2 witness. -/
def dbEmpty : DB := ⟨[], [], [], []⟩

/-- Database state after the successful first createClient of the C2 witness. -/
def dbAfterC2 : DB := ⟨[⟨"1000", "f", "l", "42", [], none⟩], [⟨"42", "1000"⟩], [], []⟩

/-- Witness for C2: a first createClient for national id 42 succeeds writing
registry entry and client together; a second call with the same national id
fails DuplicateKey and changes nothing. -/
theorem createClient_duplicate_and_atomic_witness :
    createClient (fun _ => "1000") 1 dbEmpty "f" "l" "42" [] none =
      some (Except.ok (⟨"1000", "f", "l", "42", [], none⟩ : ClientRec), dbAfterC2)
    ∧ createClient (fun _ => "1001") 1 dbAfterC2 "g" "m" "42" [] none =
      some (Except.error StoreErr.duplicateKey, dbAfterC2) := by
  have h1 :=
    (createClient_duplicate_and_atomic (fun _ => "1000") 1 dbEmpty "f" "l" "42" [] none
      "1000" (by decide)).2.1 (by decide)
  have hfirst :
      createClient (fun _ => "1000") 1 dbEmpty "f" "l" "42" [] none =
        some (Except.ok (⟨"1000", "f", "l", "42", [], none⟩ : ClientRec), dbAfterC2) := h1
  refine ⟨hfirst, ?_⟩
  exact
    (createClient_duplicate_and_atomic (fun _ => "1000") 1 dbEmpty "f" "l" "42" [] none
      "1000" (by decide)).2.2.2 dbAfterC2 ⟨"1000", "f", "l", "42", [], none⟩ hfirst
      (fun _ => "1001") 1 "g" "m" [] none "1001" (by decide)

/-- Counterexample for C8: createCase does not use a caller-supplied
identifier unchanged — it trims surrounding whitespace, so the created
case's identifier differs from the supplied value. -/
theorem createCase_trims_custom_id_cx :
    createCase (fun _ => "1000002") 1 dbA "1000" "pending" (some " 1234567 ") 9 =
      some (Except.ok (⟨"1234567", "1000", 9, "pending"⟩ : CaseRec),
        { dbA with cases := dbA.cases ++ [⟨"1234567", "1000", 9, "pending"⟩] })
    ∧ ("1234567" : String) ≠ " 1234567 " := by
  constructor
  · decide
  · decide

/-- C8 amended: with a supplied identifier whose trim is non-empty,
createCase only verifies uniqueness of the trimmed value: if it is taken the
call fails with the identifier-already-in-use error and no case is created;
if it is free the created case's identifier equals the trimmed supplied
value (hence the supplied value itself whenever it carries no surrounding
whitespace); a supplied identifier whose trim is empty is treated as absent
and auto-generation runs instead. -/
theorem createCase_custom_id_amended (gen : Nat → String) (fuel : Nat) (db : DB)
    (clientId status s : String) (date : Nat) (hs : (strTrim s == "") = false) :
    (isCaseIdUnique db (strTrim s) = false →
      createCase gen fuel db clientId status (some s) date =
        some (Except.error (StoreErr.caseIdInUse s), db))
    ∧ (isCaseIdUnique db (strTrim s) = true →
      createCase gen fuel db clientId status (some s) date =
        some (Except.ok (⟨strTrim s, clientId, date, status⟩ : CaseRec),
          { db with cases := db.cases ++ [⟨strTrim s, clientId, date, status⟩] }))
    ∧ (∀ t : String, (strTrim t == "") = true →
      createCase gen fuel db clientId status (some t) date =
        createCase gen fuel db clientId status none date) := by
  refine ⟨?_, ?_, ?_⟩
  · intro htaken
    simp [createCase, hs, htaken]
  · intro hfree
    simp [createCase, hs, hfree]
  · intro t ht
    simp [createCase, ht]

/-- Database already holding case id 1234567, for the C8 witness. -/
def dbSeven : DB := ⟨[], [], [⟨"1234567", "1000", 0, "pending"⟩], []⟩

/-- Witness for the amended C8: a taken supplied id fails with the
identifier-in-use error creating nothing; a free supplied id is used as the
created case's identifier. -/
theorem createCase_custom_id_amended_witness :
    createCase (fun _ => "1000002") 1 dbSeven "1000" "pending" (some "1234567") 9 =
      some (Except.error (StoreErr.caseIdInUse "1234567"), dbSeven)
    ∧ createCase (fun _ => "1000002") 1 dbEmpty "1000" "pending" (some "1234567") 9 =
      some (Except.ok (⟨"1234567", "1000", 9, "pending"⟩ : CaseRec),
        { dbEmpty with cases := [⟨"1234567", "1000", 9, "pending"⟩] }) :=
  ⟨(createCase_custom_id_amended (fun _ => "1000002") 1 dbSeven "1000" "pending"
      "1234567" 9 (by decide)).1 (by decide),
   (createCase_custom_id_amended (fun _ => "1000002") 1 dbEmpty "1000" "pending"
      "1234567" 9 (by decide)).2.1 (by decide)⟩

/-- C10: the occurrence timestamp of every event created through
createCaseEvent is assigned by the store at insertion time: the insert
payload (InsertCaseEvent, mirroring insertCaseEventSchema) carries no
occurredAt field, the created event's occurredAt and createdAt both equal
the insertion-time current timestamp whatever the payload, the insert
appends exactly that event to the log, and the append cannot introduce an
out-of-order occurrence time: when every stored event occurred no later
than now, that stays true of the whole log after the append. -/
theorem createEvent_occurredAt_store_assigned (db : DB) (now : Nat) (newId : String)
    (ins : InsertCaseEvent) :
    (createCaseEvent db now newId ins).1.occurredAt = now
    ∧ (createCaseEvent db now newId ins).1.createdAt = now
    ∧ (createCaseEvent db now newId ins).2.events =
        db.events ++ [(createCaseEvent db now newId ins).1]
    ∧ ((∀ x ∈ db.events, x.occurredAt ≤ now) →
        ∀ x ∈ (createCaseEvent db now newId ins).2.events, x.occurredAt ≤ now) := by
  have h3 : (createCaseEvent db now newId ins).2.events =
      db.events ++ [(createCaseEvent db now newId ins).1] := by
    show (syncCaseStatus { db with events := db.events ++
      [⟨newId, ins.caseId, ins.eventType, now, ins.details, now⟩] } ins.caseId).events = _
    rw [events_syncCaseStatus]
    rfl
  refine ⟨rfl, rfl, h3, ?_⟩
  intro hall x hx
  rw [h3] at hx
  rcases List.mem_append.mp hx with hx1 | hx1
  · exact hall x hx1
  · have hxe : x = (createCaseEvent db now newId ins).1 := by simpa using hx1
    rw [hxe]
    exact Nat.le_refl now

/-- Witness for C10: appending at time 7 to a log whose single event is at
time 5 gives the new event occurredAt 7 and keeps the log ordered below 7. -/
theorem createEvent_occurredAt_store_assigned_witness :
    (createCaseEvent dbD 7 "e10" ⟨"1000001", "in-progress", none⟩).1.occurredAt = 7
    ∧ ∀ x ∈ (createCaseEvent dbD 7 "e10" ⟨"1000001", "in-progress", none⟩).2.events,
        x.occurredAt ≤ 7 :=
  ⟨(createEvent_occurredAt_store_assigned dbD 7 "e10" ⟨"1000001", "in-progress", none⟩).1,
   (createEvent_occurredAt_store_assigned dbD 7 "e10"
      ⟨"1000001", "in-progress", none⟩).2.2.2 (by decide)⟩

/-- C6: appendEvent — the POST events route wrapped around createCaseEvent —
fails NotFound when the case does not exist; for an existing case it
succeeds, returning the created event, whose caseId, eventType and details
are the caller's, whose occurrence time is the store-assigned current
timestamp, which is inserted into the log; the triggered re-projection then
makes the case's current status the new event's type whenever the new
occurrence time is strictly beyond every existing event of the case. -/
theorem appendEvent_contract (db : DB) (now : Nat) (newId caseId eventType : String)
    (details : Option String) :
    (getCase db caseId = none →
      appendEvent db now newId caseId eventType details = Except.error StoreErr.notFound)
    ∧ (∀ c, getCase db caseId = some c →
        ∃ p, appendEvent db now newId caseId eventType details = Except.ok p)
    ∧ (∀ e db2, appendEvent db now newId caseId eventType details = Except.ok (e, db2) →
        e.caseId = caseId ∧ e.eventType = eventType ∧ e.details = details ∧
        e.occurredAt = now ∧ e.createdAt = now ∧ e ∈ db2.events ∧
        ((∀ x ∈ eventsOfCase db caseId, x.occurredAt < now) →
          caseStatus db2 caseId = some eventType)) := by
  refine ⟨?_, ?_, ?_⟩
  · intro hnone
    unfold appendEvent
    rw [hnone]
  · intro c hc
    unfold appendEvent
    rw [hc]
    exact ⟨_, rfl⟩
  · intro e db2 heq
    unfold appendEvent at heq
    cases hg : getCase db caseId with
    | none => rw [hg] at heq; cases heq
    | some c =>
      rw [hg] at heq
      have heq2 : createCaseEvent db now newId ⟨caseId, eventType, details⟩ = (e, db2) := by
        injection heq
      have he : e = (createCaseEvent db now newId ⟨caseId, eventType, details⟩).1 := by
        rw [heq2]
      have hdb : db2 = (createCaseEvent db now newId ⟨caseId, eventType, details⟩).2 := by
        rw [heq2]
      subst he
      subst hdb
      have h3 := (createEvent_occurredAt_store_assigned db now newId
        ⟨caseId, eventType, details⟩).2.2.1
      refine ⟨rfl, rfl, rfl, rfl, rfl, ?_, ?_⟩
      · rw [h3]
        exact List.mem_append_right _ (List.mem_singleton.mpr rfl)
      · intro hlt
        have hc1 : getCase { db with events := db.events ++
            [⟨newId, caseId, eventType, now, details, now⟩] } caseId = some c := hg
        have hself := caseStatus_syncCaseStatus_self hc1
        have hfl : ({ db with events := db.events ++
              [⟨newId, caseId, eventType, now, details, now⟩] } : DB).events.filter
              (fun x => x.caseId == caseId) =
            eventsOfCase db caseId ++ [⟨newId, caseId, eventType, now, details, now⟩] := by
          show (db.events ++ ([⟨newId, caseId, eventType, now, details, now⟩] :
              List CaseEvent)).filter (fun x => x.caseId == caseId) = _
          rw [List.filter_append]
          simp [eventsOfCase]
        have hmax : latestEvent (eventsOfCase db caseId ++
            [⟨newId, caseId, eventType, now, details, now⟩]) =
            some ⟨newId, caseId, eventType, now, details, now⟩ := by
          apply latestEvent_unique_max
          · exact List.mem_append_right _ (List.mem_singleton.mpr rfl)
          · intro x hx hne
            rcases List.mem_append.mp hx with hx1 | hx1
            · exact hlt x hx1
            · exact absurd (by simpa using hx1) hne
        have hps : projStatus ({ db with events := db.events ++
            [⟨newId, caseId, eventType, now, details, now⟩] } : DB).events caseId =
            eventType := by
          unfold projStatus
          rw [hfl, hmax]
        show caseStatus (syncCaseStatus { db with events := db.events ++
          [⟨newId, caseId, eventType, now, details, now⟩] } caseId) caseId = some eventType
        rw [hself, hps]

/-- Database after the C6 witness append: the case is projected to the new
event's type. -/
def dbC6after : DB :=
  ⟨[], [], [⟨"1000001", "1000", 0, "in-progress"⟩],
    [evD, ⟨"e10", "1000001", "in-progress", 7, none, 7⟩]⟩

/-- Witness for C6: appending to an unknown case fails NotFound; appending a
strictly-latest event to a known case stores it and re-projects the status
to its type. -/
theorem appendEvent_contract_witness :
    appendEvent dbEmpty 5 "e1" "9999999" "x" none = Except.error StoreErr.notFound
    ∧ ((⟨"e10", "1000001", "in-progress", 7, none, 7⟩ : CaseEvent) ∈ dbC6after.events
       ∧ caseStatus dbC6after "1000001" = some "in-progress") := by
  refine ⟨(appendEvent_contract dbEmpty 5 "e1" "9999999" "x" none).1 (by decide), ?_⟩
  have h := (appendEvent_contract dbD 7 "e10" "1000001" "in-progress" none).2.2
    ⟨"e10", "1000001", "in-progress", 7, none, 7⟩ dbC6after (by decide)
  exact ⟨h.2.2.2.2.2.1, h.2.2.2.2.2.2 (by decide)⟩

/-! ### applyPatch lemmas for C7 -/

theorem applyPatch_id (p : EventPatch) (e : CaseEvent) : (applyPatch p e).id = e.id := by
  unfold applyPatch
  cases p.eventType <;> cases p.details <;> rfl

theorem applyPatch_caseId (p : EventPatch) (e : CaseEvent) :
    (applyPatch p e).caseId = e.caseId := by
  unfold applyPatch
  cases p.eventType <;> cases p.details <;> rfl

theorem applyPatch_occurredAt (p : EventPatch) (e : CaseEvent) :
    (applyPatch p e).occurredAt = e.occurredAt := by
  unfold applyPatch
  cases p.eventType <;> cases p.details <;> rfl

theorem updEvent_id (p : EventPatch) (eventId : String) (x : CaseEvent) :
    ((if x.id == eventId then applyPatch p x else x).id == eventId) = (x.id == eventId) := by
  by_cases h : (x.id == eventId) = true <;> simp [h, applyPatch_id]

theorem updEvent_caseId (p : EventPatch) (eventId : String) (x : CaseEvent) :
    (if x.id == eventId then applyPatch p x else x).caseId = x.caseId := by
  by_cases h : (x.id == eventId) = true <;> simp [h, applyPatch_caseId]

theorem updEvent_occurredAt (p : EventPatch) (eventId : String) (x : CaseEvent) :
    (if x.id == eventId then applyPatch p x else x).occurredAt = x.occurredAt := by
  by_cases h : (x.id == eventId) = true <;> simp [h, applyPatch_occurredAt]

theorem findEvent_after_update (db : DB) (eventId : String) (p : EventPatch) :
    findEvent { db with events := db.events.map (fun x => if x.id == eventId then applyPatch p x else x) } eventId =
      (findEvent db eventId).map (fun x => if x.id == eventId then applyPatch p x else x) := by
  unfold findEvent
  exact find_map_comm _ _ (updEvent_id p eventId) _

/-- C7: updateCaseEvent rejects a patch with neither eventType nor details
(the no-fields-to-update error, InvalidArgument); a details-only patch
succeeds on an existing event and yields the event with only details
replaced — identifier, eventType and occurredAt untouched; and when the
amended event is not the strictly most recent event of its in-sync owning
case, the case's current status after the amend equals its status before. -/
theorem amendEvent_contract (db : DB) (eventId : String) (p : EventPatch) :
    (p.eventType = none → p.details = none →
      updateCaseEvent db eventId p = Except.error StoreErr.invalidArgument)
    ∧ (∀ d e, p.eventType = none → p.details = some d →
        findEvent db eventId = some e →
        ∃ db2, updateCaseEvent db eventId p =
          Except.ok (some { e with details := d }, db2))
    ∧ (∀ e m c, findEvent db eventId = some e →
        (p.eventType.isNone && p.details.isNone) = false →
        getCase db e.caseId = some c →
        m ∈ eventsOfCase db e.caseId →
        (∀ x ∈ eventsOfCase db e.caseId, x ≠ m → x.occurredAt < m.occurredAt) →
        m.id ≠ eventId →
        caseStatus db e.caseId = some m.eventType →
        ∀ eo db2, updateCaseEvent db eventId p = Except.ok (eo, db2) →
          caseStatus db2 e.caseId = caseStatus db e.caseId) := by
  refine ⟨?_, ?_, ?_⟩
  · intro h1 h2
    simp [updateCaseEvent, h1, h2]
  · intro d e h1 h2 he
    refine ⟨syncCaseStatus { db with events := db.events.map (fun x => if x.id == eventId then applyPatch p x else x) } e.caseId, ?_⟩
    have hfind := findEvent_after_update db eventId p
    rw [he] at hfind
    have hupd : (if e.id == eventId then applyPatch p e else e) =
        { e with details := d } := by
      rw [findEvent_id he]
      simp only [if_true]
      unfold applyPatch
      rw [h1, h2]
    rw [Option.map_some'] at hfind
    rw [hupd] at hfind
    simp only [updateCaseEvent, he, Option.map_some', h1, h2, Option.isNone_none,
      Option.isNone_some, Bool.true_and, Bool.false_eq_true, if_false, hfind]
  · intro e m c he hcond hc hm hmax hmid hsync eo db2 heq
    have hfind := findEvent_after_update db eventId p
    rw [he] at hfind
    simp only [updateCaseEvent, he, Option.map_some', hcond, Bool.false_eq_true,
      if_false, hfind] at heq
    have hdb2 : db2 = syncCaseStatus { db with events := db.events.map (fun x => if x.id == eventId then applyPatch p x else x) } e.caseId := by
      have h5 := heq
      injection h5 with h1
      injection h1 with h2 h3
      rw [h3]
    have hc1 : getCase { db with events := db.events.map (fun x => if x.id == eventId then applyPatch p x else x) } e.caseId = some c := hc
    have hfl : ({ db with events := db.events.map (fun x => if x.id == eventId then applyPatch p x else x) } : DB).events.filter
          (fun x => x.caseId == e.caseId) =
        (eventsOfCase db e.caseId).map
          (fun x => if x.id == eventId then applyPatch p x else x) := by
      show (db.events.map (fun x => if x.id == eventId then applyPatch p x else x)).filter
          (fun x => x.caseId == e.caseId) = _
      exact filter_map_comm _ _ (fun x => by rw [updEvent_caseId]) _
    have hmm : (if m.id == eventId then applyPatch p m else m) = m := by
      have hmf : (m.id == eventId) = false := by
        simpa using hmid
      rw [hmf]
      simp
    have hmem2 : m ∈ (eventsOfCase db e.caseId).map
        (fun x => if x.id == eventId then applyPatch p x else x) :=
      List.mem_map.mpr ⟨m, hm, hmm⟩
    have hmax2 : latestEvent ((eventsOfCase db e.caseId).map
        (fun x => if x.id == eventId then applyPatch p x else x)) = some m := by
      apply latestEvent_unique_max hmem2
      intro x2 hx2 hne2
      rcases List.mem_map.mp hx2 with ⟨x, hx, hxeq⟩
      by_cases hxm : x = m
      · rw [hxm, hmm] at hxeq
        exact absurd hxeq.symm hne2
      · have := hmax x hx hxm
        rw [← hxeq, updEvent_occurredAt]
        exact this
    have hps : projStatus ({ db with events := db.events.map (fun x => if x.id == eventId then applyPatch p x else x) } : DB).events e.caseId =
        m.eventType := by
      unfold projStatus
      rw [hfl, hmax2]
    rw [hdb2, caseStatus_syncCaseStatus_self hc1, hps, hsync]

/-- One-case two-event database for the C7 witness, in sync at status
"top". -/
def dbC7 : DB :=
  ⟨[], [], [⟨"1000001", "1000", 0, "top"⟩],
    [⟨"e1", "1000001", "old", 1, none, 1⟩, ⟨"e2", "1000001", "top", 5, none, 2⟩]⟩

/-- Database after the C7 witness amend of the older event's details. -/
def dbC7after : DB :=
  ⟨[], [], [⟨"1000001", "1000", 0, "top"⟩],
    [⟨"e1", "1000001", "old", 1, some "x", 1⟩, ⟨"e2", "1000001", "top", 5, none, 2⟩]⟩

/-- Witness for C7: an empty patch is rejected; a details-only amend of the
non-latest event leaves the case's current status unchanged. -/
theorem amendEvent_contract_witness :
    updateCaseEvent dbC7 "e1" ⟨none, none⟩ = Except.error StoreErr.invalidArgument
    ∧ caseStatus dbC7after "1000001" = caseStatus dbC7 "1000001" := by
  refine ⟨(amendEvent_contract dbC7 "e1" ⟨none, none⟩).1 rfl rfl, ?_⟩
  exact (amendEvent_contract dbC7 "e1" ⟨none, some (some "x")⟩).2.2
    ⟨"e1", "1000001", "old", 1, none, 1⟩ ⟨"e2", "1000001", "top", 5, none, 2⟩
    ⟨"1000001", "1000", 0, "top"⟩ (by decide) (by decide) (by decide) (by decide)
    (by decide) (by decide) (by decide)
    (some ⟨"e1", "1000001", "old", 1, some "x", 1⟩) dbC7after (by decide)

/-! ### Batch sync lemmas for C5 -/

/-- The foldl at the heart of syncAllCaseStatuses, over an explicit case
list. -/
def foldSync (fails : String → Bool) (db : DB) (l : List CaseRec) : DB :=
  l.foldl (fun acc c => syncCaseStatusF fails acc c.case_id) db

theorem syncCaseStatusF_events (fails : String → Bool) (db : DB) (cid : String) :
    (syncCaseStatusF fails db cid).events = db.events := by
  unfold syncCaseStatusF
  by_cases h : fails cid = true
  · rw [h]; rfl
  · rw [Bool.eq_false_iff.mpr h]
    simp [events_syncCaseStatus]

theorem caseStatus_syncCaseStatusF_step {fails : String → Bool} {db : DB} {tgt cid : String}
    (h : cid ≠ tgt ∨ fails tgt = true) :
    caseStatus (syncCaseStatusF fails db tgt) cid = caseStatus db cid := by
  unfold syncCaseStatusF
  by_cases hf : fails tgt = true
  · rw [hf]; rfl
  · rw [Bool.eq_false_iff.mpr hf]
    simp only [Bool.false_eq_true, if_false]
    rcases h with h | h
    · exact caseStatus_syncCaseStatus_other h
    · exact absurd h hf

theorem getCase_isSome_syncCaseStatusF (fails : String → Bool) (db : DB) (tgt cid : String) :
    (getCase (syncCaseStatusF fails db tgt) cid).isSome = (getCase db cid).isSome := by
  unfold syncCaseStatusF
  by_cases h : fails tgt = true
  · rw [h]; rfl
  · rw [Bool.eq_false_iff.mpr h]
    simp [getCase_isSome_syncCaseStatus]

theorem foldSync_frame_ne (fails : String → Bool) :
    ∀ (l : List CaseRec) (db : DB) (cid : String),
      (∀ x ∈ l, x.case_id ≠ cid) →
      caseStatus (foldSync fails db l) cid = caseStatus db cid := by
  intro l
  induction l with
  | nil => intro db cid h; rfl
  | cons x xs ih =>
    intro db cid h
    show caseStatus (foldSync fails (syncCaseStatusF fails db x.case_id) xs) cid = _
    rw [ih _ cid (fun y hy => h y (List.mem_cons_of_mem x hy))]
    exact caseStatus_syncCaseStatusF_step
      (Or.inl (fun hc => h x (List.mem_cons_self x xs) hc.symm))

theorem foldSync_frame_fail (fails : String → Bool) :
    ∀ (l : List CaseRec) (db : DB) (cid : String),
      fails cid = true →
      caseStatus (foldSync fails db l) cid = caseStatus db cid := by
  intro l
  induction l with
  | nil => intro db cid h; rfl
  | cons x xs ih =>
    intro db cid h
    show caseStatus (foldSync fails (syncCaseStatusF fails db x.case_id) xs) cid = _
    rw [ih _ cid h]
    by_cases hx : x.case_id = cid
    · exact caseStatus_syncCaseStatusF_step (Or.inr (hx ▸ h))
    · exact caseStatus_syncCaseStatusF_step (Or.inl (fun hc => hx hc.symm))

theorem find_isSome_of_mem {l : List CaseRec} {c : CaseRec} (h : c ∈ l) :
    (l.find? (fun x => x.case_id == c.case_id)).isSome = true := by
  induction l with
  | nil => cases h
  | cons x xs ih =>
    cases hx : (x.case_id == c.case_id) with
    | true => simp [List.find?, hx]
    | false =>
      rcases List.mem_cons.mp h with rfl | hm
      · simp at hx
      · simp only [List.find?, hx]
        exact ih hm

theorem getCase_isSome_of_mem {db : DB} {c : CaseRec} (h : c ∈ db.cases) :
    (getCase db c.case_id).isSome = true :=
  find_isSome_of_mem h

theorem foldSync_processes (fails : String → Bool) :
    ∀ (l : List CaseRec) (db : DB) (c : CaseRec),
      c ∈ l → (l.map (fun x => x.case_id)).Nodup →
      (getCase db c.case_id).isSome = true →
      fails c.case_id = false →
      caseStatus (foldSync fails db l) c.case_id =
        some (projStatus db.events c.case_id) := by
  intro l
  induction l with
  | nil => intro db c hmem; cases hmem
  | cons x xs ih =>
    intro db c hmem hnodup hsome hf
    rcases List.mem_cons.mp hmem with rfl | hmem2
    · show caseStatus (foldSync fails (syncCaseStatusF fails db c.case_id) xs) c.case_id = _
      have hnotin : ∀ y ∈ xs, y.case_id ≠ c.case_id := by
        intro y hy hcontra
        have h1 : c.case_id ∈ xs.map (fun x => x.case_id) :=
          List.mem_map.mpr ⟨y, hy, hcontra⟩
        exact (List.nodup_cons.mp hnodup).1 h1
      rw [foldSync_frame_ne fails xs _ c.case_id hnotin]
      obtain ⟨c0, hc0⟩ := Option.isSome_iff_exists.mp hsome
      have hstep : syncCaseStatusF fails db c.case_id = syncCaseStatus db c.case_id := by
        unfold syncCaseStatusF
        rw [hf]
        simp
      rw [hstep]
      exact caseStatus_syncCaseStatus_self hc0
    · have hev : (syncCaseStatusF fails db x.case_id).events = db.events :=
        syncCaseStatusF_events fails db x.case_id
      show caseStatus (foldSync fails (syncCaseStatusF fails db x.case_id) xs) c.case_id = _
      rw [ih (syncCaseStatusF fails db x.case_id) c hmem2 (List.nodup_cons.mp hnodup).2
        (by rw [getCase_isSome_syncCaseStatusF]; exact hsome) hf, hev]

/-- Two fresh cases for the C5 witness and counterexample. -/
def dbTwoCases : DB :=
  ⟨[], [], [⟨"1000001", "1000", 0, "old-status"⟩, ⟨"1000002", "1000", 0, "old-status"⟩], []⟩

/-- Counterexample for C5: syncAllCaseStatuses resolves with void — its
return value is identical whether zero or one of the two cases fails its
sync, so it cannot report how many cases were processed versus failed; the
spec-modelled reprojectAllSpec shows the two summaries the claim requires
to be distinguishable (2 processed 0 failed against 1 processed 1 failed). -/
theorem reprojectAll_no_summary_cx :
    (syncAllCaseStatuses (fun _ => false) dbTwoCases).2 =
      (syncAllCaseStatuses (fun s => s == "1000002") dbTwoCases).2
    ∧ (reprojectAllSpec (fun _ => false) dbTwoCases).2 = (2, 0)
    ∧ (reprojectAllSpec (fun s => s == "1000002") dbTwoCases).2 = (1, 1) :=
  ⟨rfl, by decide, by decide⟩

/-- C5 amended: syncAllCaseStatuses iterates every case row and isolates
per-case failures — every case whose sync round trip does not fail ends at
its projected status even when other cases' syncs fail, a failing case just
keeps its previous status (the error is caught, not thrown, so the batch
continues) — but the operation resolves with void: the processed and failed
counts are only logged, not returned. -/
theorem reprojectAll_resilient (fails : String → Bool) (db : DB) (c : CaseRec)
    (hmem : c ∈ db.cases)
    (hnodup : (db.cases.map (fun x => x.case_id)).Nodup) :
    (fails c.case_id = false →
      caseStatus (syncAllCaseStatuses fails db).1 c.case_id =
        some (projStatus db.events c.case_id))
    ∧ (fails c.case_id = true →
      caseStatus (syncAllCaseStatuses fails db).1 c.case_id = caseStatus db c.case_id)
    ∧ (syncAllCaseStatuses fails db).2 = () := by
  refine ⟨?_, ?_, rfl⟩
  · intro hf
    exact foldSync_processes fails db.cases db c hmem hnodup
      (getCase_isSome_of_mem hmem) hf
  · intro hf
    exact foldSync_frame_fail fails db.cases db c.case_id hf

/-- Witness for the amended C5: with the second case's sync failing, the
first case still gets projected to "pending" (empty log) and the failing
second case keeps its previous status. -/
theorem reprojectAll_resilient_witness :
    caseStatus (syncAllCaseStatuses (fun s => s == "1000002") dbTwoCases).1 "1000001" =
      some "pending"
    ∧ caseStatus (syncAllCaseStatuses (fun s => s == "1000002") dbTwoCases).1 "1000002" =
      caseStatus dbTwoCases "1000002" :=
  ⟨(reprojectAll_resilient (fun s => s == "1000002") dbTwoCases
      ⟨"1000001", "1000", 0, "old-status"⟩ (by decide) (by decide)).1 (by decide),
   (reprojectAll_resilient (fun s => s == "1000002") dbTwoCases
      ⟨"1000002", "1000", 0, "old-status"⟩ (by decide) (by decide)).2.1 (by decide)⟩

end Vakil
